import Mathlib

/-!
# kraken-api.js: request dispatch, signing and response translation

A shallow embedding of `src/kraken-api.js`.

* JavaScript strings are embedded as Lean strings (sequences of Unicode scalar
  values).  The operations the file performs on them (concatenation, the test
  `startsWith('E')`, `substr(1)` on a string that passed this test, `join`)
  agree on both representations.
* JavaScript numbers are doubles; a number holding a non-negative integer is
  embedded as that integer, and the product `new Date() * 1000` is rounded to the
  nearest double (`mulNumber`).
* The libraries the file calls (`qs.stringify`, `crypto`, base64, `JSON.parse`,
  `got`) are parameters of the embedding, collected in `Env` and `World`.
* Effects (reading the clock, issuing an HTTP request, invoking the completion
  callback) are recorded, in order, in a trace of `Event`s.
-/

namespace KrakenAPI

/-! ## Values -/

/-- Parameter and configuration values: strings and numbers. -/
inductive Scalar
  | str (s : String)
  | num (n : Int)
deriving DecidableEq, Repr

/-- String conversion of a value, as performed by `+` with a string operand. -/
def Scalar.toStr : Scalar → String
  | .str s => s
  | .num n => toString n

/-- Parsed JSON values, the results of `JSON.parse`.  An object is the list of
its own properties (distinct keys), in enumeration order. -/
inductive JSON
  | null
  | bool (b : Bool)
  | num (n : Int)
  | str (s : String)
  | arr (xs : List JSON)
  | obj (kvs : List (String × JSON))

/-- The throw statements of the file that construct an `Error`. -/
inductive ErrSite
  /-- Line 87: `throw new Error('The Kraken API returned an unknown error!')`. -/
  | unknownApiError
  /-- Line 90: `throw new Error(error.join(', '))`. -/
  | apiError
  /-- Line 120: `throw new Error(method + ' is not a valid API method!')`. -/
  | invalidMethod
deriving DecidableEq, Repr

/-- Exceptions and promise rejections. -/
inductive JSError
  /-- An `Error` object built by `new Error(message)` at a throw statement of the file. -/
  | error (site : ErrSite) (message : String)
  /-- A `TypeError` raised by the runtime (property read on `null`, call of a non-function). -/
  | typeError
  /-- The `SyntaxError` of `JSON.parse`. -/
  | parseError
  /-- A value the library `got` rejects with. -/
  | foreign (tag : String)
deriving DecidableEq, Repr

/-- Plain objects with string keys: own properties in enumeration order. -/
abbrev Obj (α : Type) := List (String × α)

/-- The request parameter mapping. -/
abbrev Params := Obj Scalar

/-- The header mapping. -/
abbrev Headers := Obj String

/-- Assignment `o[k] = v` for a key that is not an array index: an existing
property keeps its place and takes the new value, a new property is added last. -/
def setProp {α : Type} : Obj α → String → α → Obj α
  | [], k, v => [(k, v)]
  | (k', v') :: rest, k, v =>
    if k' = k then (k, v) :: rest else (k', v') :: setProp rest k v

/-- Property read `o[k]`; `none` is `undefined`. -/
def getProp {α : Type} : Obj α → String → Option α
  | [], _ => none
  | (k', v') :: rest, k => if k' = k then some v' else getProp rest k

/-! ## Bytes and string encodings -/

abbrev Byte := Fin 256

abbrev Bytes := List Byte

/-- The byte `n mod 256`. -/
def byteOfNat (n : Nat) : Byte := ⟨n % 256, Nat.mod_lt n (by decide)⟩

/-- UTF-16 code units of a character. -/
def utf16Units (c : Char) : List Nat :=
  if c.toNat < 0x10000 then [c.toNat]
  else [0xD800 + (c.toNat - 0x10000) / 0x400, 0xDC00 + (c.toNat - 0x10000) % 0x400]

/-- Encoding `'binary'` (latin1) of a string, as used by `hmac.update(s, 'binary')`:
one byte per UTF-16 code unit, its low eight bits. -/
def latin1Encode (s : String) : Bytes :=
  (s.data.flatMap utf16Units).map byteOfNat

/-- Decoding `'binary'` (latin1), as used by `digest('binary')`: one character per byte. -/
def latin1Decode (bs : Bytes) : String :=
  ⟨bs.map (fun b => Char.ofNat b.val)⟩

/-- UTF-8 encoding of one character. -/
def utf8Char (c : Char) : Bytes :=
  let v := c.toNat
  if v < 0x80 then [byteOfNat v]
  else if v < 0x800 then [byteOfNat (0xC0 + v / 0x40), byteOfNat (0x80 + v % 0x40)]
  else if v < 0x10000 then
    [byteOfNat (0xE0 + v / 0x1000), byteOfNat (0x80 + v / 0x40 % 0x40), byteOfNat (0x80 + v % 0x40)]
  else
    [byteOfNat (0xF0 + v / 0x40000), byteOfNat (0x80 + v / 0x1000 % 0x40),
     byteOfNat (0x80 + v / 0x40 % 0x40), byteOfNat (0x80 + v % 0x40)]

/-- UTF-8 encoding of a string, the default of `hash.update(s)`. -/
def utf8Encode (s : String) : Bytes :=
  s.data.flatMap utf8Char

/-! ## Numbers

JavaScript numbers are IEEE 754 doubles.  The numbers the file computes with hold
non-negative integers; such a number is embedded as the integer it holds, and an
arithmetic result is rounded to the nearest double, ties to the even significand. -/

/-- The number of bits by which the binary length of `n` exceeds the 53 bits of
a significand (`fuel` bounds the number of halvings). -/
def excessBits : Nat → Nat → Nat
  | 0, _ => 0
  | fuel + 1, n => if n < 2 ^ 53 then 0 else excessBits fuel (n / 2) + 1

/-- The multiple of `u` nearest to `n`; of two equally near ones, the even multiple. -/
def nearestMultiple (u n : Nat) : Nat :=
  if 2 * (n % u) < u then n / u * u
  else if u < 2 * (n % u) then (n / u + 1) * u
  else if n / u % 2 = 0 then n / u * u
  else (n / u + 1) * u

/-- The double nearest to the integer `n`: doubles of the size of `n` are the
multiples of `2 ^ excessBits n n`. -/
def roundToDouble (n : Nat) : Nat :=
  nearestMultiple (2 ^ excessBits n n) n

/-- The product `a * b` of two numbers holding non-negative integers. -/
def mulNumber (a b : Nat) : Nat := roundToDouble (a * b)

/-! ## Libraries and environment -/

/-- What `got(url, options)` receives. -/
structure HttpRequest where
  url : String
  method : String
  headers : Headers
  body : String
  timeout : Nat
deriving DecidableEq, Repr

/-- The library functions the file calls. -/
structure Env where
  /-- The form encoder `qs.stringify`. -/
  stringify : Params → String
  /-- SHA-256 of a byte string. -/
  sha256 : Bytes → Bytes
  /-- HMAC-SHA512 of a message under a key: `hmacSha512 key message`. -/
  hmacSha512 : Bytes → Bytes → Bytes
  /-- `Buffer.from(s, 'base64')`. -/
  base64Decode : String → Bytes
  /-- `digest('base64')` of a byte string. -/
  base64Encode : Bytes → String
  /-- `JSON.parse`; `none` is a `SyntaxError`. -/
  jsonParse : String → Option JSON

/-- The surroundings of one call. -/
structure World where
  /-- The reading of `new Date()`, in milliseconds since the epoch. -/
  now : Nat
  /-- The outcome of `got`: the response body, or the value it rejects with. -/
  got : HttpRequest → Except String String

/-- A completion callback: its identity and the exception its body throws, if
any, when invoked with `(error, result)`. -/
structure Callback where
  id : Nat
  throws : Option JSError → Option JSON → Option JSError

/-- Observable effects. -/
inductive Event
  /-- `new Date()` was evaluated and gave this reading. -/
  | clock (ms : Nat)
  /-- `got(url, options)` was called. -/
  | http (req : HttpRequest)
  /-- The callback `cb` was invoked with `(error, result)`; `none` is `null`. -/
  | callback (cb : Nat) (error : Option JSError) (result : Option JSON)

/-- How a call ends for its caller. -/
inductive Completion
  /-- A synchronous exception. -/
  | threw (e : JSError)
  /-- A promise is returned; it settles with the given outcome. -/
  | promise (outcome : Except JSError JSON)

/-- A call: how it completes and the effects it had. -/
structure Run where
  completion : Completion
  trace : List Event

/-- The second argument of `request`: omitted, a function, or a parameter mapping. -/
inductive Arg
  | undefined
  | func (f : Callback)
  | obj (m : Params)

/-! ## Lines 5-55: defaults and method names -/

structure Config where
  key : String
  secret : String
  url : String
  version : Scalar
  timeout : Nat
  otp : Option Scalar

/-- The table `methods`: the names of the public and of the private API (the
fields `public` and `private` of the source). -/
structure Methods where
  pub : List String
  priv : List String

def methods : Methods where
  pub := ["Time", "SystemStatus", "Assets", "AssetPairs", "Ticker", "OHLC", "Depth",
    "Trades", "Spread"]
  priv := ["Balance", "TradeBalance", "OpenOrders", "ClosedOrders", "QueryOrders",
    "TradesHistory", "QueryTrades", "OpenPositions", "Ledgers", "QueryLedgers",
    "TradeVolume", "AddExport", "ExportStatus", "RetrieveExport", "RemoveExport",
    "AddOrder", "CancelOrder", "CancelAll", "CancelAllOrdersAfter", "DepositMethods",
    "DepositAddresses", "DepositStatus", "WithdrawInfo", "Withdraw", "WithdrawStatus",
    "WithdrawCancel", "WalletTransfer", "GetWebSocketsToken"]

/-! ## Lines 57-67: `getMessageSignature` -/

/-- Create message signature for a specific request. -/
def getMessageSignature (env : Env) (path : String) (request : Params) (secret : String)
    (nonce : Int) : String :=
  let message := env.stringify request
  let secret_buffer := env.base64Decode secret
  let hash_digest := latin1Decode (env.sha256 (utf8Encode (toString nonce ++ message)))
  let hmac_digest :=
    env.base64Encode (env.hmacSha512 secret_buffer (latin1Encode (path ++ hash_digest)))
  hmac_digest

/-! ## Lines 69-94: `rawRequest` -/

/-- `e.startsWith('E')`. -/
def startsWithE (e : String) : Bool :=
  match e.data with
  | c :: _ => c == 'E'
  | [] => false

/-- `e.substr(1)`. -/
def substr1 (e : String) : String := ⟨e.data.drop 1⟩

/-- `xs.join(sep)` on an array of strings. -/
def join (xs : List String) (sep : String) : String := sep.intercalate xs

/-- Truthiness of a parsed value. -/
def JSON.truthy : JSON → Bool
  | .null => false
  | .bool b => b
  | .num n => n != 0
  | .str s => s != ""
  | .arr _ => true
  | .obj _ => true

/-- Property read `response.error`: a `TypeError` on `null`, an own property of
an object, `undefined` (`none`) on every other value. -/
def readError : JSON → Except JSError (Option JSON)
  | .null => .error .typeError
  | .obj kvs => .ok (getProp kvs "error")
  | _ => .ok none

/-- Truthiness of `x.length` for a truthy parsed value `x`. -/
def lengthTruthy : JSON → Bool
  | .str s => s.length != 0
  | .arr xs => xs.length != 0
  | .obj kvs =>
    match getProp kvs "length" with
    | some v => v.truthy
    | none => false
  | _ => false

/-- `xs.filter((e) => e.startsWith('E'))`: the call `e.startsWith` on an element
that is not a string is a `TypeError`. -/
def filterE : List JSON → Except JSError (List String)
  | [] => .ok []
  | .str e :: rest =>
    match filterE rest with
    | .ok kept => .ok (if startsWithE e then e :: kept else kept)
    | .error err => .error err
  | _ :: _ => .error .typeError

/-- `response.error.filter(...)`: only an array has the method `filter`. -/
def filterErrors : JSON → Except JSError (List String)
  | .arr xs => filterE xs
  | _ => .error .typeError

/-- Lines 83-93: the translation of the parsed response. -/
def translate (response : JSON) : Except JSError JSON :=
  match readError response with
  | .error err => .error err
  | .ok none => .ok response
  | .ok (some errors) =>
    if errors.truthy && lengthTruthy errors then
      match filterErrors errors with
      | .error err => .error err
      | .ok kept =>
        let error := kept.map substr1
        if error.length = 0 then
          .error (.error .unknownApiError "The Kraken API returned an unknown error!")
        else
          .error (.error .apiError (join error ", "))
    else
      .ok response

/-- Lines 71-78: the options handed to `got`. -/
def buildRequest (env : Env) (url : String) (headers : Headers) (data : Params)
    (timeout : Nat) : HttpRequest where
  url := url
  method := "POST"
  headers := setProp headers "User-Agent" "Kraken API Client"
  body := env.stringify data
  timeout := timeout

/-- Send an API request: the outcome of the returned promise and the request issued. -/
def rawRequest (env : Env) (w : World) (url : String) (headers : Headers) (data : Params)
    (timeout : Nat) : Except JSError JSON × List Event :=
  let options := buildRequest env url headers data timeout
  let outcome :=
    match w.got options with
    | .error rejection => .error (.foreign rejection)
    | .ok body =>
      match env.jsonParse body with
      | none => .error .parseError
      | some response => translate response
  (outcome, [.http options])

/-! ## Lines 99-178: class `KrakenAPI` -/

/-- `response.then((result) => callback(null, result)).catch((error) => callback(error, null))`
when `callback` is a function: the invocations of the callback. -/
def notify (callback : Option Callback) (response : Except JSError JSON) : List Event :=
  match callback with
  | none => []
  | some cb =>
    match response with
    | .ok result =>
      match cb.throws none (some result) with
      | none => [.callback cb.id none (some result)]
      | some thrown => [.callback cb.id none (some result), .callback cb.id (some thrown) none]
    | .error error => [.callback cb.id (some error) none]

/-- Lines 110-113, 126-131, 146-151: a function in place of the parameters becomes
the callback, and absent parameters become the empty mapping. -/
def normalize (params : Arg) (callback : Option Callback) : Params × Option Callback :=
  match params with
  | .undefined => ([], callback)
  | .func f => ([], some f)
  | .obj m => (m, callback)

/-- Make a public API request. -/
def publicAPIRequest (env : Env) (w : World) (config : Config) (method : String)
    (params : Arg) (callback : Option Callback) : Run :=
  let (params, callback) := normalize params callback
  let path := "/" ++ config.version.toStr ++ "/public/" ++ method
  let url := config.url ++ path
  let (response, sent) := rawRequest env w url [] params config.timeout
  ⟨.promise response, sent ++ notify callback response⟩

/-- Lines 156-161: the parameters of a private request, with `nonce` and `otp` set. -/
def signedParams (config : Config) (now : Nat) (params : Params) : Params :=
  let params := setProp params "nonce" (.num (mulNumber now 1000))
  match config.otp with
  | some otp => setProp params "otp" otp
  | none => params

/-- Make a private API request. -/
def privateAPIRequest (env : Env) (w : World) (config : Config) (method : String)
    (params : Arg) (callback : Option Callback) : Run :=
  let (params, callback) := normalize params callback
  let path := "/" ++ config.version.toStr ++ "/private/" ++ method
  let url := config.url ++ path
  let nonce : Int := mulNumber w.now 1000
  let params := signedParams config w.now params
  let signature := getMessageSignature env path params config.secret nonce
  let headers : Headers := [("API-Key", config.key), ("API-Sign", signature)]
  let (response, sent) := rawRequest env w url headers params config.timeout
  ⟨.promise response, .clock w.now :: sent ++ notify callback response⟩

/-- Make a public or private API request. -/
def request (env : Env) (w : World) (config : Config) (method : String) (params : Arg)
    (callback : Option Callback) : Run :=
  let (params, callback) :=
    match params with
    | .func f => (Arg.obj [], some f)
    | p => (p, callback)
  if methods.pub.contains method then
    publicAPIRequest env w config method params callback
  else if methods.priv.contains method then
    privateAPIRequest env w config method params callback
  else
    ⟨.threw (.error .invalidMethod (method ++ " is not a valid API method!")), []⟩

/-! ## Vocabulary of the statements -/

/-- The entry begins with the character `E`. -/
def BeginsWithE (e : String) : Prop := e.data.head? = some 'E'

instance (e : String) : Decidable (BeginsWithE e) := by
  unfold BeginsWithE
  infer_instance

/-- The entries beginning with `E`, in their original order, each without its
first character. -/
def hardErrors : List String → List String
  | [] => []
  | e :: es => if BeginsWithE e then ⟨e.data.tail⟩ :: hardErrors es else hardErrors es

/-- The strings of a list written one after the other, `sep` between neighbours. -/
def joinedBy (sep : String) : List String → String
  | [] => ""
  | [x] => x
  | x :: y :: rest => x ++ sep ++ joinedBy sep (y :: rest)

/-- The parsed response is an object whose `error` property is the array of
strings `entries`. -/
def HasErrorList (response : JSON) (entries : List String) : Prop :=
  ∃ kvs, response = .obj kvs ∧ getProp kvs "error" = some (.arr (entries.map .str))

/-- The parsed response is an object without an `error` property. -/
def HasNoErrorList (response : JSON) : Prop :=
  ∃ kvs, response = .obj kvs ∧ getProp kvs "error" = none

/-- The HTTP exchange of `rawRequest` delivers a body that parses to `response`. -/
def Receives (env : Env) (w : World) (url : String) (headers : Headers) (data : Params)
    (timeout : Nat) (response : JSON) : Prop :=
  ∃ body, w.got (buildRequest env url headers data timeout) = .ok body ∧
    env.jsonParse body = some response

/-- The parameter mapping the caller supplied; an absent mapping (or a function
in its place) is the empty mapping. -/
def callerParams : Arg → Params
  | .obj m => m
  | _ => []

/-- The completion callback the caller supplied: a function passed in place of
the parameters, or else the callback argument. -/
def givenCallback : Arg → Option Callback → Option Callback
  | .func f, _ => some f
  | _, callback => callback

/-- The HTTP requests issued, in order. -/
def httpRequests : List Event → List HttpRequest
  | [] => []
  | .http req :: rest => req :: httpRequests rest
  | _ :: rest => httpRequests rest

/-- The clock readings taken, in order. -/
def clockReadings : List Event → List Nat
  | [] => []
  | .clock ms :: rest => ms :: clockReadings rest
  | _ :: rest => clockReadings rest

/-- The callback invocations `(callback, error, result)`, in order. -/
def callbackCalls : List Event → List (Nat × Option JSError × Option JSON)
  | [] => []
  | .callback cb error result :: rest => (cb, error, result) :: callbackCalls rest
  | _ :: rest => callbackCalls rest

/-! ## An environment for evaluation

The library functions below stand in for the real ones when the definitions are
evaluated on concrete inputs. -/

/-- A form encoder without escaping: `key=value` pairs joined by `&`. -/
def sampleStringify (params : Params) : String :=
  "&".intercalate (params.map fun kv => kv.1 ++ "=" ++ kv.2.toStr)

/-- The response body `{"error":[],"result":{"foo":1}}`. -/
def okBody : String := "\x7b\"error\":[],\"result\":\x7b\"foo\":1\x7d\x7d"

/-- The response body `{"error":["EGeneral:Invalid"],"result":null}`. -/
def invalidBody : String := "\x7b\"error\":[\"EGeneral:Invalid\"],\"result\":null\x7d"

/-- The response body `{"error":["WWarning:Foo"],"result":null}`. -/
def warningBody : String := "\x7b\"error\":[\"WWarning:Foo\"],\"result\":null\x7d"

/-- The response body
`{"error":["EOrder:Insufficient funds","WWarning:Foo","EGeneral:Invalid"],"result":null}`. -/
def mixedBody : String :=
  "\x7b\"error\":[\"EOrder:Insufficient funds\",\"WWarning:Foo\",\"EGeneral:Invalid\"],\"result\":null\x7d"

/-- The values of `JSON.parse` on the bodies above. -/
def sampleParse (body : String) : Option JSON :=
  if body = okBody then
    some (.obj [("error", .arr []), ("result", .obj [("foo", .num 1)])])
  else if body = invalidBody then
    some (.obj [("error", .arr [.str "EGeneral:Invalid"]), ("result", .null)])
  else if body = warningBody then
    some (.obj [("error", .arr [.str "WWarning:Foo"]), ("result", .null)])
  else if body = mixedBody then
    some (.obj [("error", .arr [.str "EOrder:Insufficient funds", .str "WWarning:Foo",
      .str "EGeneral:Invalid"]), ("result", .null)])
  else none

def sampleEnv : Env where
  stringify := sampleStringify
  sha256 := fun bytes => bytes.take 32
  hmacSha512 := fun key message => key ++ message
  base64Decode := utf8Encode
  base64Encode := latin1Decode
  jsonParse := sampleParse

/-- A call at clock reading 1700000000000 whose HTTP exchange delivers `body`. -/
def sampleWorld (body : String) : World where
  now := 1700000000000
  got := fun _ => .ok body

/-- A call one millisecond later, at clock reading 1700000000001. -/
def laterWorld (body : String) : World where
  now := 1700000000001
  got := fun _ => .ok body

/-- A call whose HTTP exchange fails: `got` rejects. -/
def timeoutWorld : World where
  now := 1700000000000
  got := fun _ => .error "ETIMEDOUT"

/-- A completion callback that returns normally. -/
def sampleCallback : Callback where
  id := 1
  throws := fun _ _ => none

def sampleConfig : Config where
  key := "key"
  secret := "c2VjcmV0"
  url := "https://api.kraken.com"
  version := .num 0
  timeout := 5000
  otp := some (.str "123456")

/-! ## Auxiliary lemmas -/

theorem nearestMultiple_spec (u n : Nat) (hu : 0 < u) :
    ∃ q r, n = q * u + r ∧ r < u ∧ q = n / u ∧
      ((nearestMultiple u n = q * u ∧ (2 * r < u ∨ (2 * r = u ∧ q % 2 = 0))) ∨
       (nearestMultiple u n = q * u + u ∧ (u < 2 * r ∨ (2 * r = u ∧ q % 2 = 1)))) := by
  refine ⟨n / u, n % u, (Nat.div_add_mod' n u).symm, Nat.mod_lt _ hu, rfl, ?_⟩
  unfold nearestMultiple
  have hsucc : (n / u + 1) * u = n / u * u + u := by rw [Nat.add_mul, Nat.one_mul]
  split_ifs with h1 h2 h3
  · exact Or.inl ⟨rfl, Or.inl h1⟩
  · exact Or.inr ⟨hsucc, Or.inl h2⟩
  · exact Or.inl ⟨rfl, Or.inr ⟨by omega, h3⟩⟩
  · exact Or.inr ⟨hsucc, Or.inr ⟨by omega, by omega⟩⟩

theorem nearestMultiple_mono (u a b : Nat) (hu : 0 < u) (h : a ≤ b) :
    nearestMultiple u a ≤ nearestMultiple u b := by
  obtain ⟨qa, ra, ha, hra, hqa, hcase_a⟩ := nearestMultiple_spec u a hu
  obtain ⟨qb, rb, hb, hrb, hqb, hcase_b⟩ := nearestMultiple_spec u b hu
  have hq : qa ≤ qb := by rw [hqa, hqb]; exact Nat.div_le_div_right h
  rcases Nat.lt_or_ge qa qb with hlt | hge
  · have hmul : qa * u + u ≤ qb * u := by
      have := Nat.mul_le_mul_right u (show qa + 1 ≤ qb from hlt)
      rwa [Nat.add_mul, Nat.one_mul] at this
    rcases hcase_a with ⟨ea, _⟩ | ⟨ea, _⟩ <;> rcases hcase_b with ⟨eb, _⟩ | ⟨eb, _⟩ <;> omega
  · have heq : qa = qb := Nat.le_antisymm hq hge
    subst heq
    rcases hcase_a with ⟨ea, ca⟩ | ⟨ea, ca⟩ <;> rcases hcase_b with ⟨eb, cb⟩ | ⟨eb, cb⟩ <;> omega

theorem nearestMultiple_error (u n : Nat) (hu : 0 < u) :
    2 * nearestMultiple u n ≤ 2 * n + u ∧ 2 * n ≤ 2 * nearestMultiple u n + u := by
  obtain ⟨q, r, hn, hr, _, hcase⟩ := nearestMultiple_spec u n hu
  rcases hcase with ⟨e, c⟩ | ⟨e, c⟩ <;> omega

theorem nearestMultiple_range (u n : Nat) (hu : 0 < u) :
    n / u * u ≤ nearestMultiple u n ∧ nearestMultiple u n ≤ n / u * u + u := by
  obtain ⟨q, r, hn, hr, hq, hcase⟩ := nearestMultiple_spec u n hu
  subst hq
  rcases hcase with ⟨e, c⟩ | ⟨e, c⟩ <;> omega

/-- With enough fuel, `n` has at most `53 + excessBits fuel n` bits, and exactly
that many when the excess is positive. -/
theorem excessBits_spec (fuel n : Nat) (h : n ≤ fuel) :
    n < 2 ^ (53 + excessBits fuel n) ∧
      (0 < excessBits fuel n → 2 ^ (52 + excessBits fuel n) ≤ n) := by
  induction fuel generalizing n with
  | zero =>
    have : n = 0 := by omega
    subst this
    simp [excessBits]
  | succ fuel ih =>
    by_cases hlt : n < 2 ^ 53
    · rw [excessBits, if_pos hlt]
      exact ⟨hlt, fun h0 => absurd h0 (Nat.lt_irrefl 0)⟩
    · have h53 : (2 : Nat) ^ 53 = 9007199254740992 := by norm_num
      have hhalf : n / 2 ≤ fuel := by omega
      obtain ⟨hup, hlow⟩ := ih (n / 2) hhalf
      rw [excessBits, if_neg hlt]
      have e1 : 2 ^ (53 + (excessBits fuel (n / 2) + 1)) =
          2 * 2 ^ (53 + excessBits fuel (n / 2)) := by
        rw [← Nat.add_assoc, Nat.pow_succ, Nat.mul_comm]
      have e2 : 2 ^ (52 + (excessBits fuel (n / 2) + 1)) =
          2 * 2 ^ (52 + excessBits fuel (n / 2)) := by
        rw [← Nat.add_assoc, Nat.pow_succ, Nat.mul_comm]
      rw [e1, e2]
      refine ⟨by omega, fun _ => ?_⟩
      rcases Nat.eq_zero_or_pos (excessBits fuel (n / 2)) with h0 | hpos
      · rw [h0]
        simp only [Nat.add_zero]
        have : (2 : Nat) ^ 52 = 4503599627370496 := by norm_num
        omega
      · have := hlow hpos
        omega

theorem excessBits_mono (a b : Nat) (h : a ≤ b) : excessBits a a ≤ excessBits b b := by
  obtain ⟨_, halow⟩ := excessBits_spec a a (Nat.le_refl a)
  obtain ⟨hbup, _⟩ := excessBits_spec b b (Nat.le_refl b)
  by_contra hcon
  have hlt : excessBits b b < excessBits a a := Nat.lt_of_not_le hcon
  have h1 := halow (by omega)
  have h2 : 2 ^ (53 + excessBits b b) ≤ 2 ^ (52 + excessBits a a) :=
    Nat.pow_le_pow_right (by decide) (by omega)
  omega

theorem excessBits_le (n k : Nat) (h : n < 2 ^ (53 + k)) : excessBits n n ≤ k := by
  obtain ⟨_, hlow⟩ := excessBits_spec n n (Nat.le_refl n)
  by_contra hcon
  have hlt : k < excessBits n n := Nat.lt_of_not_le hcon
  have h1 := hlow (by omega)
  have h2 : 2 ^ (53 + k) ≤ 2 ^ (52 + excessBits n n) :=
    Nat.pow_le_pow_right (by decide) (by omega)
  omega

theorem roundToDouble_mono (a b : Nat) (h : a ≤ b) : roundToDouble a ≤ roundToDouble b := by
  unfold roundToDouble
  have hea := excessBits_mono a b h
  rcases Nat.lt_or_ge (excessBits a a) (excessBits b b) with hlt | hge
  · obtain ⟨haup, _⟩ := excessBits_spec a a (Nat.le_refl a)
    obtain ⟨_, hblow⟩ := excessBits_spec b b (Nat.le_refl b)
    have hb := hblow (by omega)
    have hua : 0 < 2 ^ excessBits a a := Nat.two_pow_pos _
    have hub : 0 < 2 ^ excessBits b b := Nat.two_pow_pos _
    have hra := (nearestMultiple_range (2 ^ excessBits a a) a hua).2
    have hrb := (nearestMultiple_range (2 ^ excessBits b b) b hub).1
    have hqa : a / 2 ^ excessBits a a < 2 ^ 53 := by
      apply Nat.div_lt_of_lt_mul
      rw [← Nat.pow_add, Nat.add_comm]
      exact haup
    have hqb : 2 ^ 52 ≤ b / 2 ^ excessBits b b := by
      rw [Nat.le_div_iff_mul_le hub, ← Nat.pow_add]
      exact hb
    have h1 : a / 2 ^ excessBits a a * 2 ^ excessBits a a + 2 ^ excessBits a a ≤
        2 ^ 53 * 2 ^ excessBits a a := by
      have := Nat.mul_le_mul_right (2 ^ excessBits a a)
        (show a / 2 ^ excessBits a a + 1 ≤ 2 ^ 53 from hqa)
      rwa [Nat.add_mul, Nat.one_mul] at this
    have h2 : 2 ^ 52 * 2 ^ excessBits b b ≤ b / 2 ^ excessBits b b * 2 ^ excessBits b b :=
      Nat.mul_le_mul_right _ hqb
    have h3 : 2 ^ 53 * 2 ^ excessBits a a ≤ 2 ^ 52 * 2 ^ excessBits b b := by
      rw [← Nat.pow_add, ← Nat.pow_add]
      exact Nat.pow_le_pow_right (by decide) (by omega)
    omega
  · have heq : excessBits a a = excessBits b b := Nat.le_antisymm hea hge
    rw [heq]
    exact nearestMultiple_mono _ a b (Nat.two_pow_pos _) h

theorem roundToDouble_lt (a b : Nat) (h : a + 1000 ≤ b) (hb : b < 2 ^ 62) :
    roundToDouble a < roundToDouble b := by
  unfold roundToDouble
  have hea : excessBits a a ≤ 9 := excessBits_le a 9 (by omega)
  have heb : excessBits b b ≤ 9 := excessBits_le b 9 (by omega)
  have hua : 2 ^ excessBits a a ≤ 2 ^ 9 := Nat.pow_le_pow_right (by decide) hea
  have hub : 2 ^ excessBits b b ≤ 2 ^ 9 := Nat.pow_le_pow_right (by decide) heb
  have h9 : (2 : Nat) ^ 9 = 512 := by norm_num
  have hra := (nearestMultiple_error (2 ^ excessBits a a) a (Nat.two_pow_pos _)).1
  have hrb := (nearestMultiple_error (2 ^ excessBits b b) b (Nat.two_pow_pos _)).2
  omega

theorem roundToDouble_exact (n : Nat) (h8 : 8 ∣ n) (h : n < 2 ^ 56) : roundToDouble n = n := by
  unfold roundToDouble
  have he : excessBits n n ≤ 3 := excessBits_le n 3 (by omega)
  have hdvd : 2 ^ excessBits n n ∣ n :=
    Nat.dvd_trans (Nat.pow_dvd_pow 2 he) (by simpa using h8)
  have hmod : n % 2 ^ excessBits n n = 0 := Nat.mod_eq_zero_of_dvd hdvd
  have hu : 0 < 2 ^ excessBits n n := Nat.two_pow_pos _
  unfold nearestMultiple
  rw [hmod, if_pos (by omega)]
  exact Nat.div_mul_cancel hdvd

theorem mulNumber_thousand_exact (ms : Nat) (h : ms < 72057594037929) :
    mulNumber ms 1000 = ms * 1000 := by
  unfold mulNumber
  rcases Nat.lt_or_ge ms 72057594037928 with hlt | hge
  · apply roundToDouble_exact
    · exact Dvd.dvd.mul_left (by decide) ms
    · have : (2 : Nat) ^ 56 = 72057594037927936 := by norm_num
      omega
  · have : ms = 72057594037928 := by omega
    subst this
    rfl

theorem getProp_setProp_same {α : Type} (o : Obj α) (k : String) (v : α) :
    getProp (setProp o k v) k = some v := by
  induction o with
  | nil => simp [setProp, getProp]
  | cons kv rest ih =>
    obtain ⟨k', v'⟩ := kv
    by_cases h : k' = k
    · simp [setProp, getProp, h]
    · simp [setProp, getProp, h, ih]

theorem getProp_setProp_ne {α : Type} (o : Obj α) (k k' : String) (v : α) (hne : k' ≠ k) :
    getProp (setProp o k v) k' = getProp o k' := by
  induction o with
  | nil => simp [setProp, getProp, Ne.symm hne]
  | cons kv rest ih =>
    obtain ⟨k₀, v₀⟩ := kv
    by_cases h : k₀ = k
    · subst h
      simp [setProp, getProp, Ne.symm hne]
    · by_cases h' : k₀ = k'
      · subst h'
        simp [setProp, getProp, h]
      · simp [setProp, getProp, h, h', ih]

theorem httpRequests_notify (callback : Option Callback) (response : Except JSError JSON) :
    httpRequests (notify callback response) = [] := by
  unfold notify
  cases callback with
  | none => rfl
  | some cb =>
    cases response with
    | error e => rfl
    | ok r =>
      simp only
      cases cb.throws none (some r) <;> rfl

theorem clockReadings_notify (callback : Option Callback) (response : Except JSError JSON) :
    clockReadings (notify callback response) = [] := by
  unfold notify
  cases callback with
  | none => rfl
  | some cb =>
    cases response with
    | error e => rfl
    | ok r =>
      simp only
      cases cb.throws none (some r) <;> rfl

theorem private_not_public : ∀ m ∈ methods.priv, m ∉ methods.pub := by
  decide

theorem normalize_eq (params : Arg) (callback : Option Callback) :
    normalize params callback = (callerParams params, givenCallback params callback) := by
  cases params <;> rfl

theorem toNat_ofNat_byte (b : Byte) : (Char.ofNat b.val).toNat = b.val := by
  have hvalid : Nat.isValidChar b.val := Or.inl (by omega)
  simp only [Char.ofNat, hvalid, Char.toNat, Char.ofNatAux, dite_true]
  rfl

theorem latin1Encode_append (a b : String) :
    latin1Encode (a ++ b) = latin1Encode a ++ latin1Encode b := by
  simp [latin1Encode]

theorem latin1Encode_latin1Decode (bs : Bytes) : latin1Encode (latin1Decode bs) = bs := by
  induction bs with
  | nil => rfl
  | cons b rest ih =>
    have hb : (Char.ofNat b.val).toNat = b.val := toNat_ofNat_byte b
    have hlt : b.val < 0x10000 := by omega
    simp only [latin1Encode, latin1Decode, List.map_cons, List.flatMap_cons] at ih ⊢
    simp only [utf16Units, hb, hlt, if_true, List.singleton_append, List.map_cons]
    rw [ih]
    congr 1
    apply Fin.ext
    simp [byteOfNat, Nat.mod_eq_of_lt b.isLt]


theorem startsWithE_iff (e : String) : startsWithE e = true ↔ BeginsWithE e := by
  unfold startsWithE BeginsWithE
  cases h : e.data with
  | nil => simp
  | cons c cs => simp

theorem filterE_strings (entries : List String) :
    filterE (entries.map .str) = .ok (entries.filter startsWithE) := by
  induction entries with
  | nil => rfl
  | cons e es ih =>
    simp only [List.map_cons, filterE, ih, List.filter_cons]

theorem filterE_ok {xs : List JSON} {kept : List String} (h : filterE xs = .ok kept) :
    ∃ entries : List String, xs = entries.map .str ∧ kept = entries.filter startsWithE := by
  induction xs generalizing kept with
  | nil =>
    simp only [filterE, Except.ok.injEq] at h
    exact ⟨[], rfl, h.symm⟩
  | cons x xs ih =>
    cases x with
    | str e =>
      simp only [filterE] at h
      cases hr : filterE xs with
      | error err => rw [hr] at h; cases h
      | ok kept' =>
        rw [hr] at h
        obtain ⟨es, hxs, hkept⟩ := ih hr
        simp only [Except.ok.injEq] at h
        refine ⟨e :: es, by rw [hxs]; rfl, ?_⟩
        rw [← h, hkept, List.filter_cons]
    | null => simp [filterE] at h
    | bool b => simp [filterE] at h
    | num n => simp [filterE] at h
    | arr ys => simp [filterE] at h
    | obj kvs => simp [filterE] at h

theorem hardErrors_eq (entries : List String) :
    hardErrors entries = (entries.filter startsWithE).map substr1 := by
  induction entries with
  | nil => rfl
  | cons e es ih =>
    by_cases h : BeginsWithE e
    · have h' : startsWithE e = true := (startsWithE_iff e).2 h
      simp [hardErrors, h, h', List.filter_cons, ih, substr1]
    · have h' : ¬ startsWithE e = true := fun c => h ((startsWithE_iff e).1 c)
      simp [hardErrors, h, h', List.filter_cons, ih]

theorem intercalate_go_append (sep : String) (xs : List String) (acc x : String) :
    String.intercalate.go (acc ++ x) sep xs = acc ++ String.intercalate.go x sep xs := by
  induction xs generalizing x with
  | nil => simp [String.intercalate.go]
  | cons a as ih =>
    simp only [String.intercalate.go]
    rw [String.append_assoc, String.append_assoc, ← String.append_assoc x sep a]
    exact ih _

theorem join_eq_joinedBy (sep : String) (xs : List String) :
    join xs sep = joinedBy sep xs := by
  unfold join
  induction xs with
  | nil => rfl
  | cons x rest ih =>
    cases rest with
    | nil => rfl
    | cons y rest =>
      simp only [joinedBy, ← ih]
      simp only [String.intercalate, String.intercalate.go]
      exact intercalate_go_append sep rest (x ++ sep) y

/-- The translation of a response whose `error` property is an array of strings. -/
theorem translate_error_list {response : JSON} {entries : List String}
    (h : HasErrorList response entries) :
    translate response =
      if entries = [] then .ok response
      else if hardErrors entries = [] then
        .error (.error .unknownApiError "The Kraken API returned an unknown error!")
      else .error (.error .apiError (joinedBy ", " (hardErrors entries))) := by
  obtain ⟨kvs, rfl, herr⟩ := h
  cases entries with
  | nil =>
    simp [translate, readError, herr, JSON.truthy, lengthTruthy]
  | cons e es =>
    simp only [translate, readError, herr, JSON.truthy, lengthTruthy, filterErrors,
      filterE_strings, hardErrors_eq, join_eq_joinedBy]
    simp

theorem hardErrors_eq_nil_iff (entries : List String) :
    hardErrors entries = [] ↔ ∀ e ∈ entries, ¬ BeginsWithE e := by
  induction entries with
  | nil => simp [hardErrors]
  | cons e es ih =>
    by_cases h : BeginsWithE e
    · simp [hardErrors, h]
    · simp [hardErrors, h, ih]

theorem filterE_error {xs : List JSON} {err : JSError} (h : filterE xs = .error err) :
    err = .typeError := by
  induction xs generalizing err with
  | nil => simp [filterE] at h
  | cons x xs ih =>
    cases x with
    | str e =>
      simp only [filterE] at h
      cases hr : filterE xs with
      | error err' =>
        rw [hr] at h
        simp only [Except.error.injEq] at h
        exact h ▸ ih hr
      | ok kept => rw [hr] at h; cases h
    | null => simp only [filterE, Except.error.injEq] at h; exact h.symm
    | bool b => simp only [filterE, Except.error.injEq] at h; exact h.symm
    | num n => simp only [filterE, Except.error.injEq] at h; exact h.symm
    | arr ys => simp only [filterE, Except.error.injEq] at h; exact h.symm
    | obj kvs => simp only [filterE, Except.error.injEq] at h; exact h.symm

/-- The throw statement of line 87 is reached only for a non-empty array of
strings none of which begins with `E`. -/
theorem translate_unknown {response : JSON} {message : String}
    (h : translate response = .error (.error .unknownApiError message)) :
    message = "The Kraken API returned an unknown error!" ∧
      ∃ entries, HasErrorList response entries ∧ entries ≠ [] ∧
        ∀ e ∈ entries, ¬ BeginsWithE e := by
  cases response with
  | null => simp [translate, readError] at h
  | bool b => simp [translate, readError] at h
  | num n => simp [translate, readError] at h
  | str s => simp [translate, readError] at h
  | arr xs => simp [translate, readError] at h
  | obj kvs =>
    simp only [translate, readError] at h
    cases herr : getProp kvs "error" with
    | none => rw [herr] at h; simp at h
    | some errors =>
      rw [herr] at h
      simp only at h
      by_cases hc : (errors.truthy && lengthTruthy errors) = true
      · rw [if_pos hc] at h
        cases errors with
        | arr xs =>
          simp only [filterErrors] at h
          cases hf : filterE xs with
          | error err =>
            rw [hf] at h
            have := filterE_error hf
            subst this
            simp at h
          | ok kept =>
            rw [hf] at h
            obtain ⟨entries, rfl, rfl⟩ := filterE_ok hf
            simp only at h
            by_cases hl : (List.map substr1 (List.filter startsWithE entries)).length = 0
            · rw [if_pos hl] at h
              simp only [Except.error.injEq, JSError.error.injEq, true_and] at h
              refine ⟨h.symm, entries, ⟨kvs, rfl, herr⟩, ?_, ?_⟩
              · intro hnil
                subst hnil
                simp [JSON.truthy, lengthTruthy] at hc
              · rw [← hardErrors_eq_nil_iff, hardErrors_eq]
                exact List.length_eq_zero.mp hl
            · rw [if_neg hl] at h
              simp at h
        | null => simp [filterErrors] at h
        | bool b => simp [filterErrors] at h
        | num n => simp [filterErrors] at h
        | str s => simp [filterErrors] at h
        | obj kvs' => simp [filterErrors] at h
      · rw [if_neg hc] at h
        simp at h

theorem rawRequest_of_receives {env : Env} {w : World} {url : String} {headers : Headers}
    {data : Params} {timeout : Nat} {response : JSON}
    (h : Receives env w url headers data timeout response) :
    (rawRequest env w url headers data timeout).1 = translate response := by
  obtain ⟨body, hgot, hparse⟩ := h
  simp only [rawRequest, hgot, hparse]

/-! ## Response translation (lines 80-93) -/

/-- C1, as stated, fails: for the body `{"error":[],"result":{"foo":1}}` the
value `rawRequest` returns is the whole parsed response, with its `error` and
`result` properties, and not the payload `{"foo":1}` held by `result`. -/
theorem rawRequest_returns_whole_response :
    (rawRequest sampleEnv (sampleWorld okBody) "https://api.kraken.com/0/public/Time" [] []
        5000).1 = .ok (.obj [("error", .arr []), ("result", .obj [("foo", .num 1)])]) ∧
    getProp [("error", JSON.arr []), ("result", JSON.obj [("foo", .num 1)])] "result" =
      some (.obj [("foo", .num 1)]) ∧
    (rawRequest sampleEnv (sampleWorld okBody) "https://api.kraken.com/0/public/Time" [] []
        5000).1 ≠ .ok (.obj [("foo", .num 1)]) := by
  refine ⟨rfl, rfl, ?_⟩
  intro h
  have h' : (Except.ok (JSON.obj [("error", .arr []), ("result", .obj [("foo", .num 1)])]) :
      Except JSError JSON) = .ok (.obj [("foo", .num 1)]) := h
  simp at h'

/-- C1, amended: for every parsed response that is an object whose `error`
property is absent or the empty array, the promise of `rawRequest` is fulfilled
with the parsed response itself (the object holding the `result` property). -/
theorem rawRequest_success (env : Env) (w : World) (url : String) (headers : Headers)
    (data : Params) (timeout : Nat) (response : JSON)
    (hrecv : Receives env w url headers data timeout response)
    (hlist : HasNoErrorList response ∨ HasErrorList response []) :
    (rawRequest env w url headers data timeout).1 = .ok response := by
  rw [rawRequest_of_receives hrecv]
  rcases hlist with ⟨kvs, rfl, herr⟩ | hempty
  · simp [translate, readError, herr]
  · rw [translate_error_list hempty]
    simp

theorem rawRequest_success_witness :
    Receives sampleEnv (sampleWorld okBody) "https://api.kraken.com/0/public/Time" [] [] 5000
        (.obj [("error", .arr []), ("result", .obj [("foo", .num 1)])]) ∧
    (rawRequest sampleEnv (sampleWorld okBody) "https://api.kraken.com/0/public/Time" [] []
        5000).1 = .ok (.obj [("error", .arr []), ("result", .obj [("foo", .num 1)])]) :=
  ⟨⟨okBody, rfl, rfl⟩,
    rawRequest_success sampleEnv (sampleWorld okBody) "https://api.kraken.com/0/public/Time"
      [] [] 5000 _ ⟨okBody, rfl, rfl⟩ (Or.inr ⟨_, rfl, rfl⟩)⟩

/-- C2: for every parsed response whose error list has an entry beginning with
`E`, the promise of `rawRequest` is rejected with the `Error` of line 90, whose
message is the entries beginning with `E`, in their order, each without its
first character, joined by `, `. -/
theorem rawRequest_hard_errors (env : Env) (w : World) (url : String) (headers : Headers)
    (data : Params) (timeout : Nat) (response : JSON) (entries : List String)
    (hrecv : Receives env w url headers data timeout response)
    (hlist : HasErrorList response entries)
    (hE : ∃ e ∈ entries, BeginsWithE e) :
    (rawRequest env w url headers data timeout).1 =
      .error (.error .apiError (joinedBy ", " (hardErrors entries))) := by
  rw [rawRequest_of_receives hrecv, translate_error_list hlist]
  obtain ⟨e, hmem, hbegins⟩ := hE
  have hne : entries ≠ [] := List.ne_nil_of_mem hmem
  have hhard : hardErrors entries ≠ [] := by
    intro hnil
    exact (hardErrors_eq_nil_iff entries).1 hnil e hmem hbegins
  rw [if_neg hne, if_neg hhard]

theorem rawRequest_hard_errors_witness :
    (∃ e ∈ ["EOrder:Insufficient funds", "WWarning:Foo", "EGeneral:Invalid"], BeginsWithE e) ∧
    joinedBy ", " (hardErrors ["EOrder:Insufficient funds", "WWarning:Foo", "EGeneral:Invalid"])
      = "Order:Insufficient funds, General:Invalid" ∧
    (rawRequest sampleEnv (sampleWorld mixedBody) "https://api.kraken.com/0/public/Time" [] []
        5000).1 = .error (.error .apiError (joinedBy ", "
          (hardErrors ["EOrder:Insufficient funds", "WWarning:Foo", "EGeneral:Invalid"]))) :=
  ⟨⟨"EGeneral:Invalid", by simp, by decide⟩, by decide,
    rawRequest_hard_errors sampleEnv (sampleWorld mixedBody)
      "https://api.kraken.com/0/public/Time" [] [] 5000 _ _ ⟨mixedBody, rfl, rfl⟩
      ⟨_, rfl, rfl⟩ ⟨"EGeneral:Invalid", by simp, by decide⟩⟩

/-- C3: for every parsed response whose error list is non-empty and has no entry
beginning with `E`, the promise of `rawRequest` is rejected with the `Error` of
line 87, message `The Kraken API returned an unknown error!` (so no value is
returned); conversely `rawRequest` raises the error of line 87 only when the
response received is such a response. -/
theorem rawRequest_unknown_error (env : Env) (w : World) (url : String) (headers : Headers)
    (data : Params) (timeout : Nat) :
    (∀ response entries, Receives env w url headers data timeout response →
      HasErrorList response entries → entries ≠ [] → (∀ e ∈ entries, ¬ BeginsWithE e) →
      (rawRequest env w url headers data timeout).1 =
        .error (.error .unknownApiError "The Kraken API returned an unknown error!")) ∧
    (∀ message, (rawRequest env w url headers data timeout).1 =
        .error (.error .unknownApiError message) →
      message = "The Kraken API returned an unknown error!" ∧
      ∃ response entries, Receives env w url headers data timeout response ∧
        HasErrorList response entries ∧ entries ≠ [] ∧ ∀ e ∈ entries, ¬ BeginsWithE e) := by
  constructor
  · intro response entries hrecv hlist hne hnoE
    rw [rawRequest_of_receives hrecv, translate_error_list hlist, if_neg hne,
      if_pos ((hardErrors_eq_nil_iff entries).2 hnoE)]
  · intro message h
    simp only [rawRequest] at h
    cases hgot : w.got (buildRequest env url headers data timeout) with
    | error rejection => rw [hgot] at h; simp at h
    | ok body =>
      rw [hgot] at h
      simp only at h
      cases hparse : env.jsonParse body with
      | none => rw [hparse] at h; simp at h
      | some response =>
        rw [hparse] at h
        obtain ⟨hmsg, entries, hlist, hne, hnoE⟩ := translate_unknown h
        exact ⟨hmsg, response, entries, ⟨body, hgot, hparse⟩, hlist, hne, hnoE⟩

theorem rawRequest_unknown_error_witness :
    (["WWarning:Foo"] ≠ [] ∧ ∀ e ∈ ["WWarning:Foo"], ¬ BeginsWithE e) ∧
    (rawRequest sampleEnv (sampleWorld warningBody) "https://api.kraken.com/0/public/Time" []
        [] 5000).1 = .error (.error .unknownApiError "The Kraken API returned an unknown error!") :=
  ⟨⟨by simp, by decide⟩,
    (rawRequest_unknown_error sampleEnv (sampleWorld warningBody)
      "https://api.kraken.com/0/public/Time" [] [] 5000).1 _ ["WWarning:Foo"]
      ⟨warningBody, rfl, rfl⟩ ⟨_, rfl, rfl⟩ (by simp) (by decide)⟩

/-! ## Signing (lines 57-67) -/

/-- C5: the signature is base64 of HMAC-SHA512, keyed with the base64-decoded
secret, of the bytes of the path followed by the raw bytes of the SHA-256 of the
decimal nonce followed by the form-encoded request.  The bytes of the path are
its `'binary'` encoding, one byte per code unit. -/
theorem getMessageSignature_spec (env : Env) (path : String) (request : Params)
    (secret : String) (nonce : Int) :
    getMessageSignature env path request secret nonce =
      env.base64Encode (env.hmacSha512 (env.base64Decode secret)
        (latin1Encode path ++ env.sha256 (utf8Encode (toString nonce ++ env.stringify request)))) := by
  unfold getMessageSignature
  simp only
  rw [latin1Encode_append, latin1Encode_latin1Decode]

/-! ## Dispatch (lines 109-177) -/

theorem request_public_eq (env : Env) (w : World) (config : Config) (method : String)
    (params : Arg) (callback : Option Callback) (hpub : method ∈ methods.pub) :
    request env w config method params callback =
      let sent := rawRequest env w (config.url ++ ("/" ++ config.version.toStr ++ "/public/" ++ method))
        [] (callerParams params) config.timeout
      ⟨.promise sent.1, sent.2 ++ notify (givenCallback params callback) sent.1⟩ := by
  cases params <;> simp [request, hpub, publicAPIRequest, normalize, callerParams, givenCallback]

theorem request_private_eq (env : Env) (w : World) (config : Config) (method : String)
    (params : Arg) (callback : Option Callback) (hpriv : method ∈ methods.priv) :
    request env w config method params callback =
      privateAPIRequest env w config method (.obj (callerParams params))
        (givenCallback params callback) := by
  have hn : method ∉ methods.pub := private_not_public method hpriv
  cases params <;>
    simp [request, hpriv, hn, privateAPIRequest, normalize, callerParams, givenCallback]

theorem request_unknown_eq (env : Env) (w : World) (config : Config) (method : String)
    (params : Arg) (callback : Option Callback)
    (hunknown : method ∉ methods.pub ∧ method ∉ methods.priv) :
    request env w config method params callback =
      ⟨.threw (.error .invalidMethod (method ++ " is not a valid API method!")), []⟩ := by
  simp [request, hunknown.1, hunknown.2]

/-- C4: `request` throws the error of line 120, whose message is the method name
followed by ` is not a valid API method!`, exactly when the name is in neither
list; it then has no effect at all: no HTTP request, no clock reading. -/
theorem request_unknown_method (env : Env) (w : World) (config : Config) (method : String)
    (params : Arg) (callback : Option Callback) :
    ((method ∉ methods.pub ∧ method ∉ methods.priv) →
      (request env w config method params callback).completion =
        .threw (.error .invalidMethod (method ++ " is not a valid API method!")) ∧
      (request env w config method params callback).trace = []) ∧
    (∀ e, (request env w config method params callback).completion = .threw e →
      method ∉ methods.pub ∧ method ∉ methods.priv) := by
  constructor
  · intro hunknown
    rw [request_unknown_eq env w config method params callback hunknown]
    exact ⟨rfl, rfl⟩
  · intro e h
    by_cases hpub : method ∈ methods.pub
    · rw [request_public_eq env w config method params callback hpub] at h
      cases h
    · by_cases hpriv : method ∈ methods.priv
      · rw [request_private_eq env w config method params callback hpriv] at h
        simp [privateAPIRequest] at h
      · exact ⟨hpub, hpriv⟩

theorem request_unknown_method_witness :
    ("NotAMethod" ∉ methods.pub ∧ "NotAMethod" ∉ methods.priv) ∧
    (request sampleEnv (sampleWorld okBody) sampleConfig "NotAMethod" (.obj []) none).completion =
      .threw (.error .invalidMethod "NotAMethod is not a valid API method!") ∧
    (request sampleEnv (sampleWorld okBody) sampleConfig "NotAMethod" (.obj []) none).trace = [] :=
  ⟨by decide,
    (request_unknown_method sampleEnv (sampleWorld okBody) sampleConfig "NotAMethod" (.obj [])
      none).1 (by decide)⟩

theorem privateAPIRequest_trace (env : Env) (w : World) (config : Config) (method : String)
    (params : Arg) (callback : Option Callback) :
    (privateAPIRequest env w config method params callback).trace =
      .clock w.now ::
      .http (buildRequest env (config.url ++ ("/" ++ config.version.toStr ++ "/private/" ++ method))
        [("API-Key", config.key), ("API-Sign", getMessageSignature env
          ("/" ++ config.version.toStr ++ "/private/" ++ method)
          (signedParams config w.now (callerParams params)) config.secret (mulNumber w.now 1000))]
        (signedParams config w.now (callerParams params)) config.timeout) ::
      notify (givenCallback params callback)
        (rawRequest env w (config.url ++ ("/" ++ config.version.toStr ++ "/private/" ++ method))
          [("API-Key", config.key), ("API-Sign", getMessageSignature env
            ("/" ++ config.version.toStr ++ "/private/" ++ method)
            (signedParams config w.now (callerParams params)) config.secret (mulNumber w.now 1000))]
          (signedParams config w.now (callerParams params)) config.timeout).1 := by
  simp [privateAPIRequest, normalize_eq, rawRequest]

/-- C6: the body `privateAPIRequest` sends is the very string that, prefixed with
the decimal nonce, is hashed for the `API-Sign` header of the same request: both
are the form encoding of the one mapping that carries the injected `nonce` and
`otp`. -/
theorem private_body_is_signed_string (env : Env) (w : World) (config : Config)
    (method : String) (params : Arg) (callback : Option Callback) :
    ∃ req, httpRequests (privateAPIRequest env w config method params callback).trace = [req] ∧
      req.body = env.stringify (signedParams config w.now (callerParams params)) ∧
      getProp req.headers "API-Sign" =
        some (env.base64Encode (env.hmacSha512 (env.base64Decode config.secret)
          (latin1Encode ("/" ++ config.version.toStr ++ "/private/" ++ method) ++
            env.sha256 (utf8Encode (toString (mulNumber w.now 1000 : Int) ++ req.body))))) := by
  refine ⟨buildRequest env
    (config.url ++ ("/" ++ config.version.toStr ++ "/private/" ++ method))
    [("API-Key", config.key), ("API-Sign", getMessageSignature env
      ("/" ++ config.version.toStr ++ "/private/" ++ method)
      (signedParams config w.now (callerParams params)) config.secret (mulNumber w.now 1000))]
    (signedParams config w.now (callerParams params)) config.timeout, ?_, ?_, ?_⟩
  · rw [privateAPIRequest_trace]
    simp only [httpRequests, httpRequests_notify]
  · rfl
  · simp [buildRequest, setProp, getProp, getMessageSignature, latin1Encode_append,
      latin1Encode_latin1Decode]

theorem getProp_signedParams_nonce (config : Config) (now : Nat) (params : Params) :
    getProp (signedParams config now params) "nonce" = some (.num (mulNumber now 1000)) := by
  unfold signedParams
  cases config.otp with
  | none => exact getProp_setProp_same _ _ _
  | some otp =>
    simp only
    rw [getProp_setProp_ne _ _ _ _ (by decide)]
    exact getProp_setProp_same _ _ _

/-- C7: for a method name of the private list, `request` reads the clock and
issues one POST to `url/version/private/method`.  Its parameter mapping is the
caller's with `nonce` set to the reading times 1000 (the product as JavaScript
computes it, which is the exact product for every reading below 72057594037929)
and, if an otp is configured, `otp` set to it (without one the caller's `otp`
entry is left as it is); its headers carry `API-Key`, the configured key, and
`API-Sign`, the signature of that path, that mapping, the configured secret and
that nonce. -/
theorem request_private (env : Env) (w : World) (config : Config) (method : String)
    (params : Arg) (callback : Option Callback) (hpriv : method ∈ methods.priv) :
    getProp (signedParams config w.now (callerParams params)) "nonce" =
      some (.num (mulNumber w.now 1000)) ∧
    (w.now < 72057594037929 →
      getProp (signedParams config w.now (callerParams params)) "nonce" =
        some (.num (w.now * 1000))) ∧
    (∀ otp, config.otp = some otp →
      getProp (signedParams config w.now (callerParams params)) "otp" = some otp) ∧
    (config.otp = none →
      getProp (signedParams config w.now (callerParams params)) "otp" =
        getProp (callerParams params) "otp") ∧
    (∀ k, k ≠ "nonce" → k ≠ "otp" →
      getProp (signedParams config w.now (callerParams params)) k =
        getProp (callerParams params) k) ∧
    clockReadings (request env w config method params callback).trace = [w.now] ∧
    httpRequests (request env w config method params callback).trace =
      [{ url := config.url ++ "/" ++ config.version.toStr ++ "/private/" ++ method
         method := "POST"
         headers := [("API-Key", config.key),
           ("API-Sign", getMessageSignature env
             ("/" ++ config.version.toStr ++ "/private/" ++ method)
             (signedParams config w.now (callerParams params)) config.secret
             (mulNumber w.now 1000)),
           ("User-Agent", "Kraken API Client")]
         body := env.stringify (signedParams config w.now (callerParams params))
         timeout := config.timeout }] := by
  refine ⟨getProp_signedParams_nonce _ _ _, ?_, ?_, ?_, ?_, ?_, ?_⟩
  · intro hnow
    rw [getProp_signedParams_nonce, mulNumber_thousand_exact w.now hnow]
    push_cast
    rfl
  · intro otp hotp
    simp only [signedParams, hotp]
    exact getProp_setProp_same _ _ _
  · intro hotp
    simp only [signedParams, hotp]
    exact getProp_setProp_ne _ _ _ _ (by decide)
  · intro k hk hk'
    unfold signedParams
    cases config.otp with
    | none => exact getProp_setProp_ne _ _ _ _ hk
    | some otp =>
      simp only
      rw [getProp_setProp_ne _ _ _ _ hk']
      exact getProp_setProp_ne _ _ _ _ hk
  · rw [request_private_eq env w config method params callback hpriv, privateAPIRequest_trace]
    simp only [clockReadings, clockReadings_notify]
  · rw [request_private_eq env w config method params callback hpriv, privateAPIRequest_trace]
    simp only [httpRequests, httpRequests_notify, callerParams]
    simp [buildRequest, setProp, String.append_assoc]

theorem request_private_witness :
    ("Balance" ∈ methods.priv ∧ (sampleWorld okBody).now < 72057594037929) ∧
    getProp (signedParams sampleConfig 1700000000000 [("otp", .str "0")]) "nonce" =
      some (.num (1700000000000 * 1000)) ∧
    getProp (signedParams sampleConfig 1700000000000 [("otp", .str "0")]) "otp" =
      some (.str "123456") ∧
    clockReadings (request sampleEnv (sampleWorld okBody) sampleConfig "Balance"
      (.obj [("otp", .str "0")]) none).trace = [1700000000000] ∧
    httpRequests (request sampleEnv (sampleWorld okBody) sampleConfig "Balance"
      (.obj [("otp", .str "0")]) none).trace =
      [{ url := "https://api.kraken.com" ++ "/" ++ "0" ++ "/private/" ++ "Balance"
         method := "POST"
         headers := [("API-Key", "key"),
           ("API-Sign", getMessageSignature sampleEnv ("/" ++ "0" ++ "/private/" ++ "Balance")
             (signedParams sampleConfig 1700000000000 [("otp", .str "0")]) "c2VjcmV0"
             (mulNumber 1700000000000 1000)),
           ("User-Agent", "Kraken API Client")]
         body := sampleEnv.stringify
           (signedParams sampleConfig 1700000000000 [("otp", .str "0")])
         timeout := 5000 }] :=
  have h := request_private sampleEnv (sampleWorld okBody) sampleConfig "Balance"
    (.obj [("otp", .str "0")]) none (by decide)
  ⟨⟨by decide, by decide⟩, h.2.1 (by decide), h.2.2.1 _ rfl, h.2.2.2.2.2.1, h.2.2.2.2.2.2⟩

/-- C8: for a method name of the public list and every configuration, `request`
issues one POST to `url/version/public/method` whose only header is the fixed
`User-Agent` and whose body is the form encoding of the caller's mapping as it is
(absent: the empty mapping); the clock is not read. -/
theorem request_public (env : Env) (w : World) (config : Config) (method : String)
    (params : Arg) (callback : Option Callback) (hpub : method ∈ methods.pub) :
    httpRequests (request env w config method params callback).trace =
      [{ url := config.url ++ "/" ++ config.version.toStr ++ "/public/" ++ method
         method := "POST"
         headers := [("User-Agent", "Kraken API Client")]
         body := env.stringify (callerParams params)
         timeout := config.timeout }] ∧
    clockReadings (request env w config method params callback).trace = [] := by
  rw [request_public_eq env w config method params callback hpub]
  constructor
  · simp [rawRequest, httpRequests, httpRequests_notify, buildRequest, setProp,
      String.append_assoc]
  · simp [rawRequest, clockReadings, clockReadings_notify]

theorem request_public_witness :
    "Ticker" ∈ methods.pub ∧
    httpRequests (request sampleEnv (sampleWorld okBody) sampleConfig "Ticker"
        (.obj [("pair", .str "XBT&USD=ü")]) none).trace =
      [{ url := "https://api.kraken.com/0/public/Ticker"
         method := "POST"
         headers := [("User-Agent", "Kraken API Client")]
         body := sampleEnv.stringify [("pair", .str "XBT&USD=ü")]
         timeout := 5000 }] ∧
    clockReadings (request sampleEnv (sampleWorld okBody) sampleConfig "Ticker"
        (.obj [("pair", .str "XBT&USD=ü")]) none).trace = [] :=
  ⟨by decide,
    request_public sampleEnv (sampleWorld okBody) sampleConfig "Ticker"
      (.obj [("pair", .str "XBT&USD=ü")]) none (by decide)⟩

/-! ## Nonces (lines 156-157) -/

/-- C9, as stated, fails: two private requests issued one after the other within
the same millisecond (clock reading 1700000000000 both times, which does not
decrease) carry the same nonce 1700000000000000, so the later nonce is not
strictly greater.  Far in the future even a later reading can repeat the nonce:
the readings 4611686018427413 and 4611686018427414 both give the double
4611686018427413504. -/
theorem nonce_repeats_within_a_millisecond :
    clockReadings (request sampleEnv (sampleWorld okBody) sampleConfig "Balance" .undefined
      none).trace = [1700000000000] ∧
    clockReadings (request sampleEnv (sampleWorld okBody) sampleConfig "OpenOrders" .undefined
      none).trace = [1700000000000] ∧
    getProp (signedParams sampleConfig 1700000000000 []) "nonce" =
      some (.num 1700000000000000) ∧
    (httpRequests (request sampleEnv (sampleWorld okBody) sampleConfig "Balance" .undefined
      none).trace).map HttpRequest.body = ["nonce=1700000000000000&otp=123456"] ∧
    (httpRequests (request sampleEnv (sampleWorld okBody) sampleConfig "OpenOrders" .undefined
      none).trace).map HttpRequest.body = ["nonce=1700000000000000&otp=123456"] ∧
    ¬ ((1700000000000000 : Int) < 1700000000000000) ∧
    getProp (signedParams sampleConfig 4611686018427413 []) "nonce" =
      some (.num 4611686018427413504) ∧
    getProp (signedParams sampleConfig 4611686018427414 []) "nonce" =
      some (.num 4611686018427413504) := by
  refine ⟨rfl, rfl, rfl, rfl, rfl, by decide, rfl, rfl⟩

/-- C9, amended: for two private requests issued one after the other by one
dispatcher under a clock whose readings do not decrease, the nonce of the later
request is not smaller than the nonce of the earlier one, and it is strictly
greater whenever the later reading is strictly greater and at most
4611686018427387 (its product with 1000 is below 2^62, where neighbouring
products round to different doubles). -/
theorem nonce_monotone (env : Env) (config : Config) (w₁ w₂ : World) (m₁ m₂ : String)
    (a₁ a₂ : Arg) (c₁ c₂ : Option Callback) (h₁ : m₁ ∈ methods.priv) (h₂ : m₂ ∈ methods.priv)
    (hclock : w₁.now ≤ w₂.now) :
    (httpRequests (request env w₁ config m₁ a₁ c₁).trace).map HttpRequest.body =
      [env.stringify (signedParams config w₁.now (callerParams a₁))] ∧
    (httpRequests (request env w₂ config m₂ a₂ c₂).trace).map HttpRequest.body =
      [env.stringify (signedParams config w₂.now (callerParams a₂))] ∧
    ∃ n₁ n₂ : Int,
      getProp (signedParams config w₁.now (callerParams a₁)) "nonce" = some (.num n₁) ∧
      getProp (signedParams config w₂.now (callerParams a₂)) "nonce" = some (.num n₂) ∧
      n₁ ≤ n₂ ∧ (w₁.now < w₂.now → w₂.now ≤ 4611686018427387 → n₁ < n₂) := by
  refine ⟨?_, ?_, mulNumber w₁.now 1000, mulNumber w₂.now 1000,
    getProp_signedParams_nonce _ _ _, getProp_signedParams_nonce _ _ _, ?_, ?_⟩
  · rw [request_private_eq env w₁ config m₁ a₁ c₁ h₁, privateAPIRequest_trace]
    simp only [httpRequests, httpRequests_notify, callerParams]
    rfl
  · rw [request_private_eq env w₂ config m₂ a₂ c₂ h₂, privateAPIRequest_trace]
    simp only [httpRequests, httpRequests_notify, callerParams]
    rfl
  · have hle : mulNumber w₁.now 1000 ≤ mulNumber w₂.now 1000 :=
      roundToDouble_mono _ _ (Nat.mul_le_mul_right 1000 hclock)
    exact_mod_cast hle
  · intro hlt hbound
    have h62 : (2 : Nat) ^ 62 = 4611686018427387904 := by norm_num
    have hstrict : mulNumber w₁.now 1000 < mulNumber w₂.now 1000 :=
      roundToDouble_lt _ _ (by omega) (by omega)
    exact_mod_cast hstrict

theorem nonce_monotone_witness :
    ("Balance" ∈ methods.priv ∧ "OpenOrders" ∈ methods.priv ∧
      (sampleWorld okBody).now ≤ (laterWorld okBody).now) ∧
    (httpRequests (request sampleEnv (sampleWorld okBody) sampleConfig "Balance" .undefined
      none).trace).map HttpRequest.body =
      [sampleEnv.stringify (signedParams sampleConfig (sampleWorld okBody).now
        (callerParams .undefined))] ∧
    (httpRequests (request sampleEnv (laterWorld okBody) sampleConfig "OpenOrders"
      (.obj [("nonce", .num 5)]) none).trace).map HttpRequest.body =
      [sampleEnv.stringify (signedParams sampleConfig (laterWorld okBody).now
        (callerParams (.obj [("nonce", .num 5)])))] ∧
    ∃ n₁ n₂ : Int,
      getProp (signedParams sampleConfig (sampleWorld okBody).now
        (callerParams .undefined)) "nonce" = some (.num n₁) ∧
      getProp (signedParams sampleConfig (laterWorld okBody).now
        (callerParams (.obj [("nonce", .num 5)]))) "nonce" = some (.num n₂) ∧
      n₁ ≤ n₂ ∧ ((sampleWorld okBody).now < (laterWorld okBody).now →
        (laterWorld okBody).now ≤ 4611686018427387 → n₁ < n₂) :=
  ⟨⟨by decide, by decide, by decide⟩,
    nonce_monotone sampleEnv sampleConfig (sampleWorld okBody) (laterWorld okBody) "Balance"
      "OpenOrders" .undefined (.obj [("nonce", .num 5)]) none none (by decide) (by decide)
      (by decide)⟩

/-! ## Completion callback (lines 137-139, 172-174) -/

theorem callbackCalls_notify_error (cb : Callback) (e : JSError) :
    callbackCalls (notify (some cb) (.error e)) = [(cb.id, some e, none)] := rfl

theorem callbackCalls_notify_ok (cb : Callback) (r : JSON) :
    ∃ later, callbackCalls (notify (some cb) (.ok r)) = (cb.id, none, some r) :: later := by
  unfold notify
  simp only
  cases cb.throws none (some r) with
  | none => exact ⟨[], rfl⟩
  | some thrown => exact ⟨[(cb.id, some thrown, none)], rfl⟩

/-- A call of `request` with a method name of one of the lists: the promise it
returns is the promise of the one `rawRequest` call it makes, and the callback is
wired to that promise. -/
theorem request_known (env : Env) (w : World) (config : Config) (method : String)
    (params : Arg) (callback : Option Callback)
    (hknown : method ∈ methods.pub ∨ method ∈ methods.priv) :
    ∃ url headers data,
      (request env w config method params callback).completion =
        .promise (rawRequest env w url headers data config.timeout).1 ∧
      httpRequests (request env w config method params callback).trace =
        [buildRequest env url headers data config.timeout] ∧
      callbackCalls (request env w config method params callback).trace =
        callbackCalls (notify (givenCallback params callback)
          (rawRequest env w url headers data config.timeout).1) := by
  by_cases hpub : method ∈ methods.pub
  · rw [request_public_eq env w config method params callback hpub]
    refine ⟨_, [], callerParams params, rfl, ?_, rfl⟩
    simp [rawRequest, httpRequests, httpRequests_notify]
  · rw [request_private_eq env w config method params callback (hknown.resolve_left hpub)]
    refine ⟨config.url ++ ("/" ++ config.version.toStr ++ "/private/" ++ method),
      [("API-Key", config.key), ("API-Sign", getMessageSignature env
        ("/" ++ config.version.toStr ++ "/private/" ++ method)
        (signedParams config w.now (callerParams params)) config.secret (mulNumber w.now 1000))],
      signedParams config w.now (callerParams params), rfl, ?_, rfl⟩
    rw [privateAPIRequest_trace]
    simp only [httpRequests, httpRequests_notify, callerParams]

/-- C10, as stated, fails: `request('NotAMethod', {}, callback)` throws the
unknown-method error synchronously; no promise is returned and the callback is
never invoked. -/
theorem unknown_method_bypasses_callback :
    givenCallback (.obj []) (some sampleCallback) = some sampleCallback ∧
    (request sampleEnv (sampleWorld okBody) sampleConfig "NotAMethod" (.obj [])
      (some sampleCallback)).completion =
        .threw (.error .invalidMethod "NotAMethod is not a valid API method!") ∧
    callbackCalls (request sampleEnv (sampleWorld okBody) sampleConfig "NotAMethod" (.obj [])
      (some sampleCallback)).trace = [] :=
  ⟨rfl, rfl, rfl⟩

/-- C10, amended: a call of `request` given a completion callback and a method
name of one of the two lists issues one HTTP request, and whatever becomes of it
reaches the caller both through the returned promise and through the callback.
A transport error (the HTTP call rejects, or the body is not JSON), an exchange
error and an unknown exchange error each reject the promise and invoke the
callback once, with `(error, null)`; a success fulfils the promise with the
parsed response and invokes the callback with `(null, result)`.  For a method
name in neither list the error is thrown synchronously and the callback is not
invoked. -/
theorem request_outcome_reaches_callback (env : Env) (w : World) (config : Config)
    (method : String) (params : Arg) (callback : Option Callback) (cb : Callback)
    (hcb : givenCallback params callback = some cb) :
    ((method ∈ methods.pub ∨ method ∈ methods.priv) →
      ∃ req, httpRequests (request env w config method params callback).trace = [req] ∧
        (∀ rejection, w.got req = .error rejection →
          (request env w config method params callback).completion =
            .promise (.error (.foreign rejection)) ∧
          callbackCalls (request env w config method params callback).trace =
            [(cb.id, some (.foreign rejection), none)]) ∧
        (∀ body, w.got req = .ok body → env.jsonParse body = none →
          (request env w config method params callback).completion =
            .promise (.error .parseError) ∧
          callbackCalls (request env w config method params callback).trace =
            [(cb.id, some .parseError, none)]) ∧
        (∀ body response, w.got req = .ok body → env.jsonParse body = some response →
          (request env w config method params callback).completion =
            .promise (translate response) ∧
          (∀ e, translate response = .error e →
            callbackCalls (request env w config method params callback).trace =
              [(cb.id, some e, none)]) ∧
          (∀ r, translate response = .ok r → ∃ later,
            callbackCalls (request env w config method params callback).trace =
              (cb.id, none, some r) :: later) ∧
          (∀ entries, HasErrorList response entries → (∃ x ∈ entries, BeginsWithE x) →
            callbackCalls (request env w config method params callback).trace =
              [(cb.id, some (.error .apiError (joinedBy ", " (hardErrors entries))), none)]) ∧
          (∀ entries, HasErrorList response entries → entries ≠ [] →
            (∀ x ∈ entries, ¬ BeginsWithE x) →
            callbackCalls (request env w config method params callback).trace =
              [(cb.id, some (.error .unknownApiError
                "The Kraken API returned an unknown error!"), none)]))) ∧
    ((method ∉ methods.pub ∧ method ∉ methods.priv) →
      (request env w config method params callback).completion =
        .threw (.error .invalidMethod (method ++ " is not a valid API method!")) ∧
      callbackCalls (request env w config method params callback).trace = []) := by
  constructor
  · intro hknown
    obtain ⟨url, headers, data, hcompletion, hhttp, hcalls⟩ :=
      request_known env w config method params callback hknown
    rw [hcb] at hcalls
    refine ⟨_, hhttp, ?_, ?_, ?_⟩
    · intro rejection hgot
      have houtcome : (rawRequest env w url headers data config.timeout).1 =
          .error (.foreign rejection) := by
        simp only [rawRequest, hgot]
      rw [hcompletion, hcalls, houtcome]
      exact ⟨rfl, rfl⟩
    · intro body hgot hparse
      have houtcome : (rawRequest env w url headers data config.timeout).1 =
          .error .parseError := by
        simp only [rawRequest, hgot, hparse]
      rw [hcompletion, hcalls, houtcome]
      exact ⟨rfl, rfl⟩
    · intro body response hgot hparse
      have houtcome : (rawRequest env w url headers data config.timeout).1 =
          translate response := by
        simp only [rawRequest, hgot, hparse]
      rw [hcompletion, hcalls, houtcome]
      refine ⟨rfl, ?_, ?_, ?_, ?_⟩
      · intro e he
        rw [he]
        exact callbackCalls_notify_error cb e
      · intro r hr
        rw [hr]
        exact callbackCalls_notify_ok cb r
      · intro entries hlist hE
        obtain ⟨x, hmem, hbegins⟩ := hE
        have hne : entries ≠ [] := List.ne_nil_of_mem hmem
        have hhard : hardErrors entries ≠ [] := fun hnil =>
          (hardErrors_eq_nil_iff entries).1 hnil x hmem hbegins
        rw [translate_error_list hlist, if_neg hne, if_neg hhard]
        exact callbackCalls_notify_error cb _
      · intro entries hlist hne hnoE
        rw [translate_error_list hlist, if_neg hne,
          if_pos ((hardErrors_eq_nil_iff entries).2 hnoE)]
        exact callbackCalls_notify_error cb _
  · intro hunknown
    rw [request_unknown_eq env w config method params callback hunknown]
    exact ⟨rfl, rfl⟩

theorem request_outcome_reaches_callback_witness :
    (givenCallback (.obj []) (some sampleCallback) = some sampleCallback ∧
      ("Time" ∈ methods.pub ∨ "Time" ∈ methods.priv)) ∧
    ((request sampleEnv timeoutWorld sampleConfig "Time" (.obj [])
        (some sampleCallback)).completion = .promise (.error (.foreign "ETIMEDOUT")) ∧
      callbackCalls (request sampleEnv timeoutWorld sampleConfig "Time" (.obj [])
        (some sampleCallback)).trace = [(sampleCallback.id, some (.foreign "ETIMEDOUT"), none)]) ∧
    ((request sampleEnv (sampleWorld invalidBody) sampleConfig "Balance" (.obj [])
        (some sampleCallback)).completion =
        .promise (.error (.error .apiError "General:Invalid")) ∧
      callbackCalls (request sampleEnv (sampleWorld invalidBody) sampleConfig "Balance" (.obj [])
        (some sampleCallback)).trace =
        [(sampleCallback.id, some (.error .apiError "General:Invalid"), none)]) := by
  refine ⟨⟨rfl, Or.inl (by decide)⟩, ?_, ?_⟩
  · obtain ⟨req, _, htransport, _⟩ :=
      (request_outcome_reaches_callback sampleEnv timeoutWorld sampleConfig "Time" (.obj [])
        (some sampleCallback) sampleCallback rfl).1 (Or.inl (by decide))
    exact htransport "ETIMEDOUT" rfl
  · obtain ⟨req, _, _, _, hparsed⟩ :=
      (request_outcome_reaches_callback sampleEnv (sampleWorld invalidBody) sampleConfig
        "Balance" (.obj []) (some sampleCallback) sampleCallback rfl).1 (Or.inr (by decide))
    obtain ⟨hcompletion, herror, _⟩ := hparsed invalidBody
      (.obj [("error", .arr [.str "EGeneral:Invalid"]), ("result", .null)]) rfl rfl
    exact ⟨hcompletion, herror _ rfl⟩

end KrakenAPI
